import Mathlib

/-!
Verification of the text-analysis pipeline (`text_analysis_pipeline.py`).

Strings are modelled as `List Char` (`Str`), so that Python's substring
test (`"research" in classification`), `str.lower()`, `str.strip()` and
string concatenation have direct executable counterparts.  The external
generative-model calls made by the step functions are abstracted into an
`Oracle` of (possibly failing) functions, as the spec treats them as
opaque collaborators.  The LangGraph runtime (state merge and graph
execution) is not part of this repository's source; it is modelled from
the spec (§4.1, §4.3) and marked as such below.
-/

/-- Strings are modelled as lists of characters. -/
abbrev Str : Type := List Char

/-- Converts a Lean string literal to the `Str` model. -/

def str (s : String) : Str := s.toList

/-- `isPrefixList n h` is Python-style "h starts with n". -/

def isPrefixList : Str → Str → Bool
  | [], _ => true
  | _ :: _, [] => false
  | a :: as, b :: bs => a = b && isPrefixList as bs

/-- `containsSub n h` models Python's substring test `n in h`. -/

def containsSub (n : Str) : Str → Bool
  | [] => isPrefixList n []
  | b :: bs => isPrefixList n (b :: bs) || containsSub n bs

/-- Python's `str.lower()`, character-wise. -/

def lowerStr (s : Str) : Str := s.map Char.toLower

/-- The shared graph state (`GraphState` TypedDict, source lines 26–35):
`text` is the required input, the remaining fields are optional until a
step writes them. -/

structure GraphState where
  text : Str
  classification : Option Str := none
  entities : Option (List Str) := none
  summary : Option Str := none
  sentiment : Option Str := none
  report : Option Str := none
  deriving DecidableEq, Repr

/-- A partial state update as returned by a node: only the fields the
node produces are present (`some`). -/

structure StateUpdate where
  text : Option Str := none
  classification : Option Str := none
  entities : Option (List Str) := none
  summary : Option Str := none
  sentiment : Option Str := none
  report : Option Str := none
  deriving DecidableEq, Repr

/-- One field of the merge: the update's value when present, otherwise
the prior value. -/

def mergeField {α : Type} (old upd : Option α) : Option α :=
  match upd with
  | some v => some v
  | none => old

/-- Modelled from the spec: the State Container's merge (§4.1), the
LangGraph runtime behaviour of combining a node's returned partial
update into the shared state — a shallow field-wise overwrite; the
runtime itself is not part of this repository's source. -/

def merge (s : GraphState) (u : StateUpdate) : GraphState :=
  { text := match u.text with | some t => t | none => s.text
    classification := mergeField s.classification u.classification
    entities := mergeField s.entities u.entities
    summary := mergeField s.summary u.summary
    sentiment := mergeField s.sentiment u.sentiment
    report := mergeField s.report u.report }

/-- The names of the state's fields, for field-quantified statements. -/

inductive SField where
  | text | classification | entities | summary | sentiment | report
  deriving DecidableEq, Repr

/-- A field's value, tagged by shape (`entities` holds a list of strings,
the other fields hold strings). -/

inductive FieldVal where
  | vStr (s : Str)
  | vList (l : List Str)
  deriving DecidableEq, Repr

/-- Reads one field of the state (`none` when unset). -/

def getField (s : GraphState) : SField → Option FieldVal
  | .text => some (.vStr s.text)
  | .classification => s.classification.map .vStr
  | .entities => s.entities.map .vList
  | .summary => s.summary.map .vStr
  | .sentiment => s.sentiment.map .vStr
  | .report => s.report.map .vStr

/-- Reads one field of a partial update (`none` when the update does not
touch it). -/

def getUpdField (u : StateUpdate) : SField → Option FieldVal
  | .text => u.text.map .vStr
  | .classification => u.classification.map .vStr
  | .entities => u.entities.map .vList
  | .summary => u.summary.map .vStr
  | .sentiment => u.sentiment.map .vStr
  | .report => u.report.map .vStr

/-- The routing logic of `decide_path` (source lines 162–171) applied to
the classification string: lowercase it, then first-match on the
substrings "research", "blog", "news", defaulting to "end". -/

def decide_path_on (c : Str) : Str :=
  if containsSub (str "research") (lowerStr c) then str "research_branch"
  else if containsSub (str "blog") (lowerStr c) then str "blog_branch"
  else if containsSub (str "news") (lowerStr c) then str "news_branch"
  else str "end"

/-- `decide_path` (source lines 162–171).  The source reads
`state["classification"].lower()`; when the field is unset this raises,
modelled here as `none`. -/

def decide_path (s : GraphState) : Option Str :=
  s.classification.map decide_path_on

/-- The routing logic of `route_after_entities` (source lines 204–213)
applied to the classification string: first-match on "research"
(detailed summary), then "blog" (sentiment), defaulting to the standard
summary. -/

def route_after_entities_on (c : Str) : Str :=
  if containsSub (str "research") (lowerStr c) then str "detailed_summary"
  else if containsSub (str "blog") (lowerStr c) then str "analyze_sentiment"
  else str "standard_summary"

/-- `route_after_entities` (source lines 204–213); `none` models the
error raised when the classification field is unset. -/

def route_after_entities (s : GraphState) : Option Str :=
  s.classification.map route_after_entities_on

def joinSep (sep : Str) : List Str → Str
  | [] => []
  | [x] => x
  | x :: y :: rest => x ++ sep ++ joinSep sep (y :: rest)

/-- Removes trailing whitespace (the right half of Python's
`str.strip()`). -/

def stripRightW (l : Str) : Str :=
  (l.reverse.dropWhile Char.isWhitespace).reverse

/-- Python's `str.strip()`: removes leading and trailing whitespace. -/

def pyStrip (l : Str) : Str :=
  stripRightW (l.dropWhile Char.isWhitespace)

/-- The external generative-model calls made by the five model-backed
steps (source lines 39–126).  Each is an opaque, possibly failing
function of the input text; the spec treats them as external
collaborators, so they are parameters of the model.  An error models a
raised exception (e.g. a `ModelCallError`). -/

structure Oracle where
  classify : Str → Except Str Str
  extract : Str → Except Str (List Str)
  standardSummary : Str → Except Str Str
  detailedSummary : Str → Except Str Str
  sentiment : Str → Except Str Str

/-- A step function failure: a model-call error carried unchanged, or a
missing-key error from reading an unset state field. -/

inductive StepError where
  | modelCall (msg : Str)
  | missingKey (k : Str)
  deriving DecidableEq, Repr

/-- `classification_node` (source lines 39–53): calls the model on the
state's text and writes the `classification` field. -/

def classification_node (o : Oracle) (s : GraphState) : Except StepError StateUpdate :=
  match o.classify s.text with
  | .error e => .error (.modelCall e)
  | .ok c => .ok { classification := some c }

/-- `entity_extraction_node` (source lines 56–79): calls the model on the
state's text and writes the `entities` field. -/

def entity_extraction_node (o : Oracle) (s : GraphState) : Except StepError StateUpdate :=
  match o.extract s.text with
  | .error e => .error (.modelCall e)
  | .ok es => .ok { entities := some es }

/-- `standard_summarization_node` (source lines 81–94): writes the
`summary` field. -/

def standard_summarization_node (o : Oracle) (s : GraphState) : Except StepError StateUpdate :=
  match o.standardSummary s.text with
  | .error e => .error (.modelCall e)
  | .ok sm => .ok { summary := some sm }

/-- `detailed_summarization_node` (source lines 96–110): writes the
`summary` field. -/

def detailed_summarization_node (o : Oracle) (s : GraphState) : Except StepError StateUpdate :=
  match o.detailedSummary s.text with
  | .error e => .error (.modelCall e)
  | .ok sm => .ok { summary := some sm }

/-- `sentiment_analysis_node` (source lines 112–126): writes the
`sentiment` field. -/

def sentiment_analysis_node (o : Oracle) (s : GraphState) : Except StepError StateUpdate :=
  match o.sentiment s.text with
  | .error e => .error (.modelCall e)
  | .ok st => .ok { sentiment := some st }

/-- The `entities_str` local of `report_generation_node` (source lines
131–133): `"None"` unless the entities field is a non-empty list
(Python truthiness of `state.get('entities')`), else a `"- "`-bulleted,
newline-joined list. -/

def entitiesStr (s : GraphState) : Str :=
  match s.entities with
  | some (e :: es) => str "- " ++ joinSep (str "\n- ") (e :: es)
  | _ => str "None"

/-- `report_generation_node` (source lines 128–158): builds the report
from the classification (raising, modelled as an error, when that field
is unset), the entities bullet list, and optional summary / sentiment
sections appended only when those fields are truthy; returns the
stripped report. -/

def report_generation_node (s : GraphState) : Except StepError StateUpdate :=
  match s.classification with
  | none => .error (.missingKey (str "classification"))
  | some c =>
    let es := entitiesStr s
    let report0 := str "\n## Text Analysis Report\n\n**1. Classification:**\n" ++ c
      ++ str "\n\n**2. Extracted Entities:**\n" ++ es ++ str "\n"
    let report1 := match s.summary with
      | some (a :: as) => report0 ++ str "\n**3. Summary:**\n" ++ (a :: as) ++ str "\n"
      | _ => report0
    let report2 := match s.sentiment with
      | some (a :: as) => report1
          ++ str "\n**3. Sentiment Analysis:**\nThe sentiment of the text is **"
          ++ (a :: as) ++ str "**.\n"
      | _ => report1
    .ok { report := some (pyStrip report2) }

/-- The six named nodes of the compiled workflow (source lines 219–224). -/

inductive NodeName where
  | classify | extract_entities | detailed_summary | standard_summary
  | analyze_sentiment | generate_report
  deriving DecidableEq, Repr

/-- An edge target: a named node or the `END` terminal marker. -/

inductive Targ where
  | toNode (n : NodeName)
  | toEnd
  deriving DecidableEq, Repr

/-- The label-to-target table of the conditional edges out of `classify`
(source lines 228–232). -/

def classifyMap (label : Str) : Option Targ :=
  if label = str "research_branch" then some (.toNode .extract_entities)
  else if label = str "blog_branch" then some (.toNode .extract_entities)
  else if label = str "news_branch" then some (.toNode .extract_entities)
  else if label = str "end" then some .toEnd
  else none

/-- The label-to-target table of the conditional edges out of
`extract_entities` (source lines 235–239). -/

def extractMap (label : Str) : Option Targ :=
  if label = str "detailed_summary" then some (.toNode .detailed_summary)
  else if label = str "standard_summary" then some (.toNode .standard_summary)
  else if label = str "analyze_sentiment" then some (.toNode .analyze_sentiment)
  else none

/-- An execution-engine failure, per spec §7: a step failure (cause
retained, node named), a router raising, a router label absent from its
mapping, or the iteration budget running out. -/

inductive EngineError where
  | stepFailed (n : NodeName) (e : StepError)
  | routerFailed (n : NodeName)
  | unmappedLabel (n : NodeName) (label : Str)
  | outOfFuel
  deriving DecidableEq, Repr

/-- Runs one node's step function (the registered functions of source
lines 219–224) against the current state, producing a partial update. -/

def runNode (o : Oracle) (n : NodeName) (s : GraphState) : Except StepError StateUpdate :=
  match n with
  | .classify => classification_node o s
  | .extract_entities => entity_extraction_node o s
  | .detailed_summary => detailed_summarization_node o s
  | .standard_summary => standard_summarization_node o s
  | .analyze_sentiment => sentiment_analysis_node o s
  | .generate_report => report_generation_node s

/-- The out-edge structure of the compiled workflow (source lines
227–246): `classify` and `extract_entities` route conditionally through
their routers and label tables; the three branch nodes have an
unconditional edge to `generate_report`; `generate_report` goes to
`END`. -/

def routeOf (n : NodeName) (s : GraphState) : Except EngineError Targ :=
  match n with
  | .classify =>
    match decide_path s with
    | none => .error (.routerFailed .classify)
    | some label =>
      match classifyMap label with
      | none => .error (.unmappedLabel .classify label)
      | some t => .ok t
  | .extract_entities =>
    match route_after_entities s with
    | none => .error (.routerFailed .extract_entities)
    | some label =>
      match extractMap label with
      | none => .error (.unmappedLabel .extract_entities label)
      | some t => .ok t
  | .detailed_summary => .ok (.toNode .generate_report)
  | .standard_summary => .ok (.toNode .generate_report)
  | .analyze_sentiment => .ok (.toNode .generate_report)
  | .generate_report => .ok .toEnd

/-- Modelled from the spec: the Execution Engine (§4.3), which is the
LangGraph runtime, not part of this repository's source.  From node `n`:
run the node's step, merge its update, evaluate the out-edge with the
post-merge state, and continue at the unique successor until `END`;
errors propagate and abort the run with no state.  Since routing here is
exclusive (one successor per node), the spec's ready-queue holds at most
one node and the engine is this simple loop.  The fuel argument bounds
iteration; runs of the compiled graph need at most 4 (proved below). -/

def execFrom (o : Oracle) : Nat → NodeName → GraphState → Except EngineError (GraphState × List NodeName)
  | 0, _, _ => .error .outOfFuel
  | Nat.succ fuel, n, s =>
    match runNode o n s with
    | .error e => .error (.stepFailed n e)
    | .ok u =>
      let s1 := merge s u
      match routeOf n s1 with
      | .error e => .error e
      | .ok .toEnd => .ok (s1, [n])
      | .ok (.toNode m) =>
        match execFrom o fuel m s1 with
        | .error e => .error e
        | .ok (f, t) => .ok (f, n :: t)

/-- `app.invoke` (source lines 249, 271): runs the compiled graph from
the entry point `classify` (source line 227); returns the final state
and the list of executed nodes, or the first error. -/

def app_invoke (o : Oracle) (s : GraphState) : Except EngineError (GraphState × List NodeName) :=
  execFrom o 4 .classify s

/-- One unfolding step of the engine loop. -/

def branchFor (c : Str) : NodeName :=
  if route_after_entities_on c = str "detailed_summary" then .detailed_summary
  else if route_after_entities_on c = str "analyze_sentiment" then .analyze_sentiment
  else .standard_summary

/-- The second label table maps the router output to `branchFor`. -/

def branchUpd (o : Oracle) (b : NodeName) (txt : Str) : Except Str StateUpdate :=
  match b with
  | .analyze_sentiment => (o.sentiment txt).map fun st => { sentiment := some st }
  | .detailed_summary => (o.detailedSummary txt).map fun sm => { summary := some sm }
  | _ => (o.standardSummary txt).map fun sm => { summary := some sm }

/-- Closed-form description of a full run of the compiled graph:
classify, then either stop (label "end") or extract entities, run the
one branch node selected by `route_after_entities`, and generate the
report.  Proved equal to the engine run in `app_invoke_eq_runSpec`. -/

def runSpec (o : Oracle) (s : GraphState) : Except EngineError (GraphState × List NodeName) :=
  match o.classify s.text with
  | .error e => .error (.stepFailed .classify (.modelCall e))
  | .ok c =>
    let s1 := merge s { classification := some c }
    if decide_path_on c = str "end" then .ok (s1, [.classify])
    else
      match o.extract s.text with
      | .error e => .error (.stepFailed .extract_entities (.modelCall e))
      | .ok es =>
        let s2 := merge s1 { entities := some es }
        match branchUpd o (branchFor c) s.text with
        | .error e => .error (.stepFailed (branchFor c) (.modelCall e))
        | .ok u =>
          let s3 := merge s2 u
          match report_generation_node s3 with
          | .error e => .error (.stepFailed .generate_report e)
          | .ok ur =>
            .ok (merge s3 ur, [.classify, .extract_entities, branchFor c, .generate_report])

/-- The engine run of the compiled graph equals its closed-form
description. -/

def successors : NodeName → List NodeName
  | .classify => [.extract_entities]
  | .extract_entities => [.detailed_summary, .standard_summary, .analyze_sentiment]
  | .detailed_summary => [.generate_report]
  | .standard_summary => [.generate_report]
  | .analyze_sentiment => [.generate_report]
  | .generate_report => []

/-- A topological rank for the compiled graph's nodes. -/

def rank : NodeName → Nat
  | .classify => 0
  | .extract_entities => 1
  | .detailed_summary => 2
  | .standard_summary => 2
  | .analyze_sentiment => 2
  | .generate_report => 3

/-- The engine's routing only follows the static edge structure. -/

def hasNonWs (l : Str) : Bool := l.any fun ch => !ch.isWhitespace

/-- The last character of `l` exists and is not whitespace. -/

def lastNonWs (l : Str) : Bool :=
  match l.reverse with
  | [] => false
  | a :: _ => !a.isWhitespace

/-- The fixed header of the generated report, parameterised by the
classification and the entities bullet list. -/

def reportHeaderD (c es : Str) : Str :=
  str "\n## Text Analysis Report\n\n**1. Classification:**\n" ++ c
    ++ str "\n\n**2. Extracted Entities:**\n" ++ es ++ str "\n"

/-- The summary section of the report: present exactly when the summary
field is truthy (set and non-empty). -/

def summaryPartD (s : GraphState) : Str :=
  match s.summary with
  | some (a :: as) => str "\n**3. Summary:**\n" ++ (a :: as) ++ str "\n"
  | _ => []

/-- The sentiment section of the report: present exactly when the
sentiment field is truthy (set and non-empty). -/

def sentimentPartD (s : GraphState) : Str :=
  match s.sentiment with
  | some (a :: as) =>
    str "\n**3. Sentiment Analysis:**\nThe sentiment of the text is **"
      ++ (a :: as) ++ str "**.\n"
  | _ => []

/-- A list is a Python-prefix of itself followed by anything. -/

def oWit : Oracle :=
  { classify := fun _ => .ok (str "Research")
    extract := fun _ => .ok [str "E"]
    standardSummary := fun _ => .ok (str "STD")
    detailedSummary := fun _ => .ok (str "S")
    sentiment := fun _ => .ok (str "Positive") }

/-- A second mocked oracle: same classification, different summary. -/

def oWit2 : Oracle :=
  { classify := fun _ => .ok (str "Research")
    extract := fun _ => .ok [str "E"]
    standardSummary := fun _ => .ok (str "STD")
    detailedSummary := fun _ => .ok (str "S2")
    sentiment := fun _ => .ok (str "Positive") }

/-- A mocked oracle whose extraction step fails. -/

def oFail : Oracle :=
  { classify := fun _ => .ok (str "News")
    extract := fun _ => .error (str "boom")
    standardSummary := fun _ => .ok (str "STD")
    detailedSummary := fun _ => .ok (str "S")
    sentiment := fun _ => .ok (str "Positive") }

/-- The initial witness state: only the input text is set. -/

def sWit : GraphState := { text := str "T" }

/-- The final state of the witness run under `oWit`. -/

def fWit : GraphState :=
  { text := str "T"
    classification := some (str "Research")
    entities := some [str "E"]
    summary := some (str "S")
    sentiment := none
    report := some (str "## Text Analysis Report\n\n**1. Classification:**\nResearch\n\n**2. Extracted Entities:**\n- E\n\n**3. Summary:**\nS") }

/-- The final state of the witness run under `oWit2`. -/

def fWit2 : GraphState :=
  { text := str "T"
    classification := some (str "Research")
    entities := some [str "E"]
    summary := some (str "S2")
    sentiment := none
    report := some (str "## Text Analysis Report\n\n**1. Classification:**\nResearch\n\n**2. Extracted Entities:**\n- E\n\n**3. Summary:**\nS2") }

/-- The executed nodes of the witness runs. -/

def tWit : List NodeName :=
  [.classify, .extract_entities, .detailed_summary, .generate_report]

def sWitNews : GraphState := { text := str "T", classification := some (str "News") }

/-- A witness state whose classification contains both "blog" and
"news" but not "research". -/

def sWitBlogNews : GraphState :=
  { text := str "T", classification := some (str "Blog news") }

/-- A witness state for the report node: empty entities, truthy
summary, no sentiment. -/

def sWitRep : GraphState :=
  { text := str "T", classification := some (str "Research")
    entities := some [], summary := some (str "S") }

/-- A witness partial update. -/

def uWit : StateUpdate := { summary := some (str "X") }

/-- Witness for C1 at a concrete oracle and state. -/

example : decide_path_on (str "Research") = str "research_branch" := by decide

example : decide_path_on (str "my Blog News") = str "blog_branch" := by decide

example : decide_path_on (str "poem") = str "end" := by decide

example : route_after_entities_on (str "News") = str "standard_summary" := by decide

/-- Python's `'sep'.join(xs)`. -/

theorem execFrom_succ (o : Oracle) (fuel : Nat) (n : NodeName) (s : GraphState) :
    execFrom o (fuel + 1) n s =
      match runNode o n s with
      | .error e => .error (.stepFailed n e)
      | .ok u =>
        let s1 := merge s u
        match routeOf n s1 with
        | .error e => .error e
        | .ok .toEnd => .ok (s1, [n])
        | .ok (.toNode m) =>
          match execFrom o fuel m s1 with
          | .error e => .error e
          | .ok (f, t) => .ok (f, n :: t) := rfl

/-- `decide_path` always returns a label from its declared set. -/

theorem decide_path_on_mem (c : Str) :
    decide_path_on c = str "research_branch" ∨ decide_path_on c = str "blog_branch" ∨
    decide_path_on c = str "news_branch" ∨ decide_path_on c = str "end" := by
  unfold decide_path_on
  split_ifs <;> simp

/-- `route_after_entities` always returns a label from its declared set. -/

theorem route_after_entities_on_mem (c : Str) :
    route_after_entities_on c = str "detailed_summary" ∨
    route_after_entities_on c = str "analyze_sentiment" ∨
    route_after_entities_on c = str "standard_summary" := by
  unfold route_after_entities_on
  split_ifs <;> simp

/-- The branch node the second conditional edge selects for a
classification string, through `route_after_entities` and its label
table. -/

theorem extractMap_route (c : Str) :
    extractMap (route_after_entities_on c) = some (.toNode (branchFor c)) := by
  rcases route_after_entities_on_mem c with h | h | h <;>
    simp only [branchFor, extractMap, h] <;> decide

/-- The first label table maps the router output to `extract_entities`,
or to the terminal marker on label "end". -/

theorem classifyMap_decide (c : Str) :
    classifyMap (decide_path_on c) =
      some (if decide_path_on c = str "end" then .toEnd else .toNode .extract_entities) := by
  rcases decide_path_on_mem c with h | h | h | h <;>
    simp only [classifyMap, h] <;> decide

/-- The partial update produced by the selected branch node. -/

theorem app_invoke_eq_runSpec (o : Oracle) (s : GraphState) :
    app_invoke o s = runSpec o s := by
  unfold app_invoke runSpec
  rw [show (4:Nat) = 3 + 1 by rfl, execFrom_succ]
  rcases hc : o.classify s.text with e | c
  · simp [runNode, classification_node, hc]
  · rcases decide_path_on_mem c with h | h | h | h

    · simp only [runNode, classification_node, hc]
      simp [routeOf, decide_path, merge, mergeField, h]
      have h1 : classifyMap (str "research_branch") = some (Targ.toNode NodeName.extract_entities) := by decide
      rw [if_neg (by decide : ¬ (str "research_branch" = str "end"))]
      simp only [h1]
      rw [show (3:Nat) = 2 + 1 by rfl, execFrom_succ]
      simp only [runNode, entity_extraction_node]
      rcases he : o.extract s.text with e | es
      · simp [he]
      · simp only [he]
        simp [routeOf, route_after_entities, merge, mergeField]
        rcases route_after_entities_on_mem c with hr | hr | hr
        · have hb : branchFor c = NodeName.detailed_summary := by
            unfold branchFor; rw [hr]; decide
          have h2 : extractMap (str "detailed_summary") = some (Targ.toNode NodeName.detailed_summary) := by decide
          rw [hr]
          simp only [h2, hb]
          rw [show (2:Nat) = 1 + 1 by rfl, execFrom_succ]
          simp only [runNode, detailed_summarization_node, branchUpd]
          rcases hd : o.detailedSummary s.text with e | sm
          · simp [hd, Except.map]
          · simp only [hd, Except.map]
            simp [merge, mergeField, routeOf]
            rw [show (1:Nat) = 0 + 1 by rfl, execFrom_succ]
            simp only [runNode, routeOf]
            rcases hrep : report_generation_node { text := s.text, classification := some c, entities := some es, summary := some sm, sentiment := s.sentiment, report := s.report } with e | ur
            · simp [hrep]
            · simp [hrep, merge, mergeField]
        · have hb : branchFor c = NodeName.analyze_sentiment := by
            unfold branchFor; rw [hr]; decide
          have h2 : extractMap (str "analyze_sentiment") = some (Targ.toNode NodeName.analyze_sentiment) := by decide
          rw [hr]
          simp only [h2, hb]
          rw [show (2:Nat) = 1 + 1 by rfl, execFrom_succ]
          simp only [runNode, sentiment_analysis_node, branchUpd]
          rcases hd : o.sentiment s.text with e | st
          · simp [hd, Except.map]
          · simp only [hd, Except.map]
            simp [merge, mergeField, routeOf]
            rw [show (1:Nat) = 0 + 1 by rfl, execFrom_succ]
            simp only [runNode, routeOf]
            rcases hrep : report_generation_node { text := s.text, classification := some c, entities := some es, summary := s.summary, sentiment := some st, report := s.report } with e | ur
            · simp [hrep]
            · simp [hrep, merge, mergeField]
        · have hb : branchFor c = NodeName.standard_summary := by
            unfold branchFor; rw [hr]; decide
          have h2 : extractMap (str "standard_summary") = some (Targ.toNode NodeName.standard_summary) := by decide
          rw [hr]
          simp only [h2, hb]
          rw [show (2:Nat) = 1 + 1 by rfl, execFrom_succ]
          simp only [runNode, standard_summarization_node, branchUpd]
          rcases hd : o.standardSummary s.text with e | sm
          · simp [hd, Except.map]
          · simp only [hd, Except.map]
            simp [merge, mergeField, routeOf]
            rw [show (1:Nat) = 0 + 1 by rfl, execFrom_succ]
            simp only [runNode, routeOf]
            rcases hrep : report_generation_node { text := s.text, classification := some c, entities := some es, summary := some sm, sentiment := s.sentiment, report := s.report } with e | ur
            · simp [hrep]
            · simp [hrep, merge, mergeField]

    · simp only [runNode, classification_node, hc]
      simp [routeOf, decide_path, merge, mergeField, h]
      have h1 : classifyMap (str "blog_branch") = some (Targ.toNode NodeName.extract_entities) := by decide
      rw [if_neg (by decide : ¬ (str "blog_branch" = str "end"))]
      simp only [h1]
      rw [show (3:Nat) = 2 + 1 by rfl, execFrom_succ]
      simp only [runNode, entity_extraction_node]
      rcases he : o.extract s.text with e | es
      · simp [he]
      · simp only [he]
        simp [routeOf, route_after_entities, merge, mergeField]
        rcases route_after_entities_on_mem c with hr | hr | hr
        · have hb : branchFor c = NodeName.detailed_summary := by
            unfold branchFor; rw [hr]; decide
          have h2 : extractMap (str "detailed_summary") = some (Targ.toNode NodeName.detailed_summary) := by decide
          rw [hr]
          simp only [h2, hb]
          rw [show (2:Nat) = 1 + 1 by rfl, execFrom_succ]
          simp only [runNode, detailed_summarization_node, branchUpd]
          rcases hd : o.detailedSummary s.text with e | sm
          · simp [hd, Except.map]
          · simp only [hd, Except.map]
            simp [merge, mergeField, routeOf]
            rw [show (1:Nat) = 0 + 1 by rfl, execFrom_succ]
            simp only [runNode, routeOf]
            rcases hrep : report_generation_node { text := s.text, classification := some c, entities := some es, summary := some sm, sentiment := s.sentiment, report := s.report } with e | ur
            · simp [hrep]
            · simp [hrep, merge, mergeField]
        · have hb : branchFor c = NodeName.analyze_sentiment := by
            unfold branchFor; rw [hr]; decide
          have h2 : extractMap (str "analyze_sentiment") = some (Targ.toNode NodeName.analyze_sentiment) := by decide
          rw [hr]
          simp only [h2, hb]
          rw [show (2:Nat) = 1 + 1 by rfl, execFrom_succ]
          simp only [runNode, sentiment_analysis_node, branchUpd]
          rcases hd : o.sentiment s.text with e | st
          · simp [hd, Except.map]
          · simp only [hd, Except.map]
            simp [merge, mergeField, routeOf]
            rw [show (1:Nat) = 0 + 1 by rfl, execFrom_succ]
            simp only [runNode, routeOf]
            rcases hrep : report_generation_node { text := s.text, classification := some c, entities := some es, summary := s.summary, sentiment := some st, report := s.report } with e | ur
            · simp [hrep]
            · simp [hrep, merge, mergeField]
        · have hb : branchFor c = NodeName.standard_summary := by
            unfold branchFor; rw [hr]; decide
          have h2 : extractMap (str "standard_summary") = some (Targ.toNode NodeName.standard_summary) := by decide
          rw [hr]
          simp only [h2, hb]
          rw [show (2:Nat) = 1 + 1 by rfl, execFrom_succ]
          simp only [runNode, standard_summarization_node, branchUpd]
          rcases hd : o.standardSummary s.text with e | sm
          · simp [hd, Except.map]
          · simp only [hd, Except.map]
            simp [merge, mergeField, routeOf]
            rw [show (1:Nat) = 0 + 1 by rfl, execFrom_succ]
            simp only [runNode, routeOf]
            rcases hrep : report_generation_node { text := s.text, classification := some c, entities := some es, summary := some sm, sentiment := s.sentiment, report := s.report } with e | ur
            · simp [hrep]
            · simp [hrep, merge, mergeField]

    · simp only [runNode, classification_node, hc]
      simp [routeOf, decide_path, merge, mergeField, h]
      have h1 : classifyMap (str "news_branch") = some (Targ.toNode NodeName.extract_entities) := by decide
      rw [if_neg (by decide : ¬ (str "news_branch" = str "end"))]
      simp only [h1]
      rw [show (3:Nat) = 2 + 1 by rfl, execFrom_succ]
      simp only [runNode, entity_extraction_node]
      rcases he : o.extract s.text with e | es
      · simp [he]
      · simp only [he]
        simp [routeOf, route_after_entities, merge, mergeField]
        rcases route_after_entities_on_mem c with hr | hr | hr
        · have hb : branchFor c = NodeName.detailed_summary := by
            unfold branchFor; rw [hr]; decide
          have h2 : extractMap (str "detailed_summary") = some (Targ.toNode NodeName.detailed_summary) := by decide
          rw [hr]
          simp only [h2, hb]
          rw [show (2:Nat) = 1 + 1 by rfl, execFrom_succ]
          simp only [runNode, detailed_summarization_node, branchUpd]
          rcases hd : o.detailedSummary s.text with e | sm
          · simp [hd, Except.map]
          · simp only [hd, Except.map]
            simp [merge, mergeField, routeOf]
            rw [show (1:Nat) = 0 + 1 by rfl, execFrom_succ]
            simp only [runNode, routeOf]
            rcases hrep : report_generation_node { text := s.text, classification := some c, entities := some es, summary := some sm, sentiment := s.sentiment, report := s.report } with e | ur
            · simp [hrep]
            · simp [hrep, merge, mergeField]
        · have hb : branchFor c = NodeName.analyze_sentiment := by
            unfold branchFor; rw [hr]; decide
          have h2 : extractMap (str "analyze_sentiment") = some (Targ.toNode NodeName.analyze_sentiment) := by decide
          rw [hr]
          simp only [h2, hb]
          rw [show (2:Nat) = 1 + 1 by rfl, execFrom_succ]
          simp only [runNode, sentiment_analysis_node, branchUpd]
          rcases hd : o.sentiment s.text with e | st
          · simp [hd, Except.map]
          · simp only [hd, Except.map]
            simp [merge, mergeField, routeOf]
            rw [show (1:Nat) = 0 + 1 by rfl, execFrom_succ]
            simp only [runNode, routeOf]
            rcases hrep : report_generation_node { text := s.text, classification := some c, entities := some es, summary := s.summary, sentiment := some st, report := s.report } with e | ur
            · simp [hrep]
            · simp [hrep, merge, mergeField]
        · have hb : branchFor c = NodeName.standard_summary := by
            unfold branchFor; rw [hr]; decide
          have h2 : extractMap (str "standard_summary") = some (Targ.toNode NodeName.standard_summary) := by decide
          rw [hr]
          simp only [h2, hb]
          rw [show (2:Nat) = 1 + 1 by rfl, execFrom_succ]
          simp only [runNode, standard_summarization_node, branchUpd]
          rcases hd : o.standardSummary s.text with e | sm
          · simp [hd, Except.map]
          · simp only [hd, Except.map]
            simp [merge, mergeField, routeOf]
            rw [show (1:Nat) = 0 + 1 by rfl, execFrom_succ]
            simp only [runNode, routeOf]
            rcases hrep : report_generation_node { text := s.text, classification := some c, entities := some es, summary := some sm, sentiment := s.sentiment, report := s.report } with e | ur
            · simp [hrep]
            · simp [hrep, merge, mergeField]
    · simp only [runNode, classification_node, hc]
      simp [routeOf, decide_path, merge, mergeField, h]
      have h1 : classifyMap (str "end") = some Targ.toEnd := by decide
      simp only [h1]

/-- When the classification field is set, `report_generation_node`
succeeds and writes only the `report` field. -/

theorem report_generation_node_of_some (s : GraphState) (c : Str)
    (h : s.classification = some c) :
    ∃ r, report_generation_node s = .ok { report := some r } := by
  unfold report_generation_node
  rw [h]
  exact ⟨_, rfl⟩

/-- A successful `report_generation_node` update carries only the
`report` field. -/

theorem report_generation_node_shape (s : GraphState) (u : StateUpdate)
    (h : report_generation_node s = .ok u) : ∃ r, u = { report := some r } := by
  unfold report_generation_node at h
  cases hc : s.classification with
  | none => rw [hc] at h; cases h
  | some c =>
    rw [hc] at h
    injection h with h2
    exact ⟨_, h2.symm⟩

/-- A successful branch-node update never touches the classification
field. -/

theorem branchUpd_classification (o : Oracle) (b : NodeName) (txt : Str)
    (u : StateUpdate) (h : branchUpd o b txt = .ok u) : u.classification = none := by
  cases b <;> simp only [branchUpd] at h
  case classify =>
    rcases hx : o.standardSummary txt with e | v <;> simp only [hx, Except.map] at h
    · exact Except.noConfusion h
    · injection h with h2; rw [← h2]
  case extract_entities =>
    rcases hx : o.standardSummary txt with e | v <;> simp only [hx, Except.map] at h
    · exact Except.noConfusion h
    · injection h with h2; rw [← h2]
  case detailed_summary =>
    rcases hx : o.detailedSummary txt with e | v <;> simp only [hx, Except.map] at h
    · exact Except.noConfusion h
    · injection h with h2; rw [← h2]
  case standard_summary =>
    rcases hx : o.standardSummary txt with e | v <;> simp only [hx, Except.map] at h
    · exact Except.noConfusion h
    · injection h with h2; rw [← h2]
  case analyze_sentiment =>
    rcases hx : o.sentiment txt with e | v <;> simp only [hx, Except.map] at h
    · exact Except.noConfusion h
    · injection h with h2; rw [← h2]
  case generate_report =>
    rcases hx : o.standardSummary txt with e | v <;> simp only [hx, Except.map] at h
    · exact Except.noConfusion h
    · injection h with h2; rw [← h2]

/-- Every successful run: classify succeeded with some classification
`c`, the final state carries `c`, and the executed nodes are either just
`classify` (label "end") or the four-node path through `branchFor c`. -/

theorem run_trace (o : Oracle) (s f : GraphState) (t : List NodeName)
    (h : app_invoke o s = .ok (f, t)) :
    ∃ c, o.classify s.text = .ok c ∧ f.classification = some c ∧
      ((decide_path_on c = str "end" ∧ t = [.classify]) ∨
       (decide_path_on c ≠ str "end" ∧
         t = [.classify, .extract_entities, branchFor c, .generate_report])) := by
  rw [app_invoke_eq_runSpec] at h
  unfold runSpec at h
  rcases hc : o.classify s.text with e | c
  · rw [hc] at h; exact Except.noConfusion h
  · simp only [hc] at h
    refine ⟨c, rfl, ?_⟩
    by_cases hend : decide_path_on c = str "end"
    · rw [if_pos hend] at h
      injection h with h2
      rw [Prod.mk.injEq] at h2
      obtain ⟨hf, ht⟩ := h2
      constructor
      · rw [← hf]; simp [merge, mergeField]
      · exact Or.inl ⟨hend, ht.symm⟩
    · rw [if_neg hend] at h
      rcases he : o.extract s.text with e | es <;> simp only [he] at h
      · exact Except.noConfusion h
      rcases hbu : branchUpd o (branchFor c) s.text with e | u <;> simp only [hbu] at h
      · exact Except.noConfusion h
      rcases hrep : report_generation_node
          (merge (merge (merge s { classification := some c })
            { entities := some es }) u) with e | ur <;> simp only [hrep] at h
      · exact Except.noConfusion h
      injection h with h2
      rw [Prod.mk.injEq] at h2
      obtain ⟨hf, ht⟩ := h2
      obtain ⟨r, hur⟩ := report_generation_node_shape _ _ hrep
      have huc := branchUpd_classification o (branchFor c) s.text u hbu
      constructor
      · rw [← hf, hur]; simp [merge, mergeField, huc]
      · exact Or.inr ⟨hend, ht.symm⟩

/-- The static out-edge structure of the compiled graph (source lines
227–246): for each node, the set of nodes reachable in one step through
any unconditional edge or any conditional-edge label (the terminal
marker is not a node). -/

theorem routeOf_successors (n m : NodeName) (s : GraphState)
    (h : routeOf n s = .ok (.toNode m)) : m ∈ successors n := by
  cases n <;> simp only [routeOf] at h
  case classify =>
    rcases hd : decide_path s with _ | l <;> simp only [hd] at h
    · exact Except.noConfusion h
    · rcases hm : classifyMap l with _ | tg <;> simp only [hm] at h
      · exact Except.noConfusion h
      · injection h with h2
        subst h2
        unfold classifyMap at hm
        split_ifs at hm <;> injection hm with hm2 <;>
          (try exact Targ.noConfusion hm2) <;>
          (injection hm2 with hm3; rw [← hm3]; decide)
  case extract_entities =>
    rcases hd : route_after_entities s with _ | l <;> simp only [hd] at h
    · exact Except.noConfusion h
    · rcases hm : extractMap l with _ | tg <;> simp only [hm] at h
      · exact Except.noConfusion h
      · injection h with h2
        subst h2
        unfold extractMap at hm
        split_ifs at hm <;> injection hm with hm2 <;>
          (injection hm2 with hm3; rw [← hm3]; decide)
  case detailed_summary => injection h with h2; injection h2 with h3; rw [← h3]; decide
  case standard_summary => injection h with h2; injection h2 with h3; rw [← h3]; decide
  case analyze_sentiment => injection h with h2; injection h2 with h3; rw [← h3]; decide
  case generate_report => injection h with h2; exact Targ.noConfusion h2

/-- Edges strictly increase the rank. -/

theorem successors_rank (a b : NodeName) (h : b ∈ successors a) :
    rank a < rank b := by
  cases a <;> cases b <;> revert h <;> decide

/-- Any path through the static edge structure strictly increases the
rank. -/

theorem transGen_rank (a b : NodeName)
    (h : Relation.TransGen (fun x y => y ∈ successors x) a b) :
    rank a < rank b := by
  induction h with
  | single hs => exact successors_rank _ _ hs
  | tail _ hs ih => exact ih.trans (successors_rank _ _ hs)

/-- The only runtime errors a run can produce are step failures: the
fuel bound, the router-failure branch and the unmapped-label branch are
never hit. -/

theorem runSpec_error_shape (o : Oracle) (s : GraphState) (e : EngineError)
    (h : runSpec o s = .error e) : ∃ n se, e = .stepFailed n se := by
  unfold runSpec at h
  rcases hc : o.classify s.text with er | c <;> simp only [hc] at h
  · injection h with h2; exact ⟨_, _, h2.symm⟩
  · by_cases hend : decide_path_on c = str "end"
    · rw [if_pos hend] at h; exact Except.noConfusion h
    · rw [if_neg hend] at h
      rcases he : o.extract s.text with er | es <;> simp only [he] at h
      · injection h with h2; exact ⟨_, _, h2.symm⟩
      rcases hbu : branchUpd o (branchFor c) s.text with er | u <;> simp only [hbu] at h
      · injection h with h2; exact ⟨_, _, h2.symm⟩
      rcases hrep : report_generation_node
          (merge (merge (merge s { classification := some c })
            { entities := some es }) u) with er | ur <;> simp only [hrep] at h
      · injection h with h2; exact ⟨_, _, h2.symm⟩
      exact Except.noConfusion h

/-- A run never runs out of fuel (fuel 4 suffices: the graph is a DAG of
depth 4). -/

theorem app_invoke_not_outOfFuel (o : Oracle) (s : GraphState) :
    app_invoke o s ≠ .error .outOfFuel := by
  intro h
  rw [app_invoke_eq_runSpec] at h
  obtain ⟨n, se, hsh⟩ := runSpec_error_shape o s _ h
  exact EngineError.noConfusion hsh

/-- The merge is a shallow field-wise overwrite: each field of the
merged state is the update's value when the update carries that field,
and the prior value otherwise. -/

theorem getField_merge (s : GraphState) (u : StateUpdate) (g : SField) :
    getField (merge s u) g =
      match getUpdField u g with
      | some v => some v
      | none => getField s g := by
  cases g
  case text =>
    rcases hu : u.text with _ | v <;> simp [hu, getField, getUpdField, merge, mergeField]
  case classification =>
    rcases hu : u.classification with _ | v <;>
      simp [hu, getField, getUpdField, merge, mergeField]
  case entities =>
    rcases hu : u.entities with _ | v <;> simp [hu, getField, getUpdField, merge, mergeField]
  case summary =>
    rcases hu : u.summary with _ | v <;> simp [hu, getField, getUpdField, merge, mergeField]
  case sentiment =>
    rcases hu : u.sentiment with _ | v <;> simp [hu, getField, getUpdField, merge, mergeField]
  case report =>
    rcases hu : u.report with _ | v <;> simp [hu, getField, getUpdField, merge, mergeField]

/-- The merge never deletes a field. -/

theorem getField_merge_isSome (s : GraphState) (u : StateUpdate) (g : SField)
    (h : (getField s g).isSome = true) : (getField (merge s u) g).isSome = true := by
  rw [getField_merge]
  cases hu : getUpdField u g
  · exact h
  · rfl

/-- A successful run never deletes a field: every field set in the
initial state is still set in the final state. -/

theorem app_invoke_preserves (o : Oracle) (s f : GraphState) (t : List NodeName)
    (g : SField) (h : app_invoke o s = .ok (f, t))
    (hset : (getField s g).isSome = true) : (getField f g).isSome = true := by
  rw [app_invoke_eq_runSpec] at h
  unfold runSpec at h
  rcases hc : o.classify s.text with e | c <;> simp only [hc] at h
  · exact Except.noConfusion h
  by_cases hend : decide_path_on c = str "end"
  · rw [if_pos hend] at h
    injection h with h2
    rw [Prod.mk.injEq] at h2
    rw [← h2.1]
    exact getField_merge_isSome _ _ _ hset
  rw [if_neg hend] at h
  rcases he : o.extract s.text with e | es <;> simp only [he] at h
  · exact Except.noConfusion h
  rcases hbu : branchUpd o (branchFor c) s.text with e | u <;> simp only [hbu] at h
  · exact Except.noConfusion h
  rcases hrep : report_generation_node
      (merge (merge (merge s { classification := some c })
        { entities := some es }) u) with e | ur <;> simp only [hrep] at h
  · exact Except.noConfusion h
  injection h with h2
  rw [Prod.mk.injEq] at h2
  rw [← h2.1]
  exact getField_merge_isSome _ _ _ (getField_merge_isSome _ _ _
    (getField_merge_isSome _ _ _ (getField_merge_isSome _ _ _ hset)))

/-- C1: for every initial state whose text classifies as "Research", the
run routes from classify via label "research_branch" to
extract_entities, route_after_entities selects "detailed_summary", the
detailed-summary node runs, and the final state has
classification="Research", the extracted entities, the detailed summary,
and no sentiment. -/

theorem c1_research_path (o : Oracle) (s : GraphState) (ents : List Str) (sm : Str)
    (hc : o.classify s.text = .ok (str "Research"))
    (he : o.extract s.text = .ok ents)
    (hd : o.detailedSummary s.text = .ok sm)
    (hs : s.sentiment = none) :
    decide_path_on (str "Research") = str "research_branch" ∧
    classifyMap (str "research_branch") = some (.toNode .extract_entities) ∧
    route_after_entities_on (str "Research") = str "detailed_summary" ∧
    (app_invoke o s).toOption.map (fun p =>
        (p.1.classification, p.1.entities, p.1.summary, p.1.sentiment, p.2)) =
      some (some (str "Research"), some ents, some sm, none,
        [NodeName.classify, .extract_entities, .detailed_summary, .generate_report]) := by
  refine ⟨by decide, by decide, by decide, ?_⟩
  rw [app_invoke_eq_runSpec]
  unfold runSpec
  simp only [hc]
  rw [if_neg (by decide : ¬ decide_path_on (str "Research") = str "end")]
  simp only [he]
  have hbf : branchFor (str "Research") = NodeName.detailed_summary := by decide
  simp only [hbf, branchUpd, hd, Except.map]
  obtain ⟨r, hrep⟩ := report_generation_node_of_some
    (merge (merge (merge s { classification := some (str "Research") })
      { entities := some ents }) { summary := some sm }) (str "Research")
    (by simp [merge, mergeField])
  rw [hrep]
  simp [merge, mergeField, hs, Except.toOption]

/-- C2: whenever the classification field holds a string, `decide_path`
returns a label of its declared mapping and `route_after_entities`
returns a label of its declared mapping, so the unmapped-label error
branch is unreachable for both routers. -/

theorem c2_labels_always_mapped (s : GraphState) (c : Str)
    (h : s.classification = some c) :
    decide_path s = some (decide_path_on c) ∧
    (decide_path_on c = str "research_branch" ∨ decide_path_on c = str "blog_branch" ∨
      decide_path_on c = str "news_branch" ∨ decide_path_on c = str "end") ∧
    (classifyMap (decide_path_on c)).isSome = true ∧
    route_after_entities s = some (route_after_entities_on c) ∧
    (route_after_entities_on c = str "detailed_summary" ∨
      route_after_entities_on c = str "analyze_sentiment" ∨
      route_after_entities_on c = str "standard_summary") ∧
    (extractMap (route_after_entities_on c)).isSome = true ∧
    (∀ l, routeOf .classify s ≠ .error (.unmappedLabel .classify l)) ∧
    (∀ l, routeOf .extract_entities s ≠ .error (.unmappedLabel .extract_entities l)) := by
  refine ⟨by simp [decide_path, h], decide_path_on_mem c, ?_,
    by simp [route_after_entities, h], route_after_entities_on_mem c, ?_, ?_, ?_⟩
  · rw [classifyMap_decide]; rfl
  · rw [extractMap_route]; rfl
  · intro l hcon
    simp only [routeOf, decide_path, h, Option.map_some', classifyMap_decide] at hcon
    exact Except.noConfusion hcon
  · intro l hcon
    simp only [routeOf, route_after_entities, h, Option.map_some', extractMap_route] at hcon
    exact Except.noConfusion hcon

/-- C3: routing on the classification string is first-match with
precedence research > blog > news: a classification containing both
"blog" and "news" (case-insensitively) but not "research" routes to
"blog_branch" and, after extraction, to "analyze_sentiment". -/

theorem c3_first_match_precedence (s : GraphState) (c : Str)
    (h : s.classification = some c)
    (hb : containsSub (str "blog") (lowerStr c) = true)
    (hn : containsSub (str "news") (lowerStr c) = true)
    (hr : containsSub (str "research") (lowerStr c) = false) :
    decide_path s = some (str "blog_branch") ∧
    route_after_entities s = some (str "analyze_sentiment") := by
  constructor <;>
    simp [decide_path, route_after_entities, h, decide_path_on,
      route_after_entities_on, hb, hn, hr]

/-- C4: conditional routing is exclusive: at most one of the three
branch nodes executes per run, never two; a branch node executes only
when the second router's label selects it; and when extraction ran, the
trace is exactly the four-node path through the selected branch. -/

theorem c4_exclusive_routing (o : Oracle) (s f : GraphState) (t : List NodeName)
    (h : app_invoke o s = .ok (f, t)) :
    ∃ c, f.classification = some c ∧
      (List.count .detailed_summary t + List.count .standard_summary t +
        List.count .analyze_sentiment t ≤ 1) ∧
      (.detailed_summary ∈ t → route_after_entities_on c = str "detailed_summary") ∧
      (.standard_summary ∈ t → route_after_entities_on c = str "standard_summary") ∧
      (.analyze_sentiment ∈ t → route_after_entities_on c = str "analyze_sentiment") ∧
      (.extract_entities ∈ t →
        t = [.classify, .extract_entities, branchFor c, .generate_report]) ∧
      ¬(.detailed_summary ∈ t ∧ .standard_summary ∈ t) ∧
      ¬(.detailed_summary ∈ t ∧ .analyze_sentiment ∈ t) ∧
      ¬(.standard_summary ∈ t ∧ .analyze_sentiment ∈ t) := by
  obtain ⟨c, hc, hfc, hcase⟩ := run_trace o s f t h
  refine ⟨c, hfc, ?_⟩
  rcases hcase with ⟨hend, ht⟩ | ⟨hend, ht⟩
  · subst ht
    exact ⟨by decide, fun hm => absurd hm (by decide), fun hm => absurd hm (by decide),
      fun hm => absurd hm (by decide), fun hm => absurd hm (by decide),
      by decide, by decide, by decide⟩
  · rcases route_after_entities_on_mem c with hr | hr | hr
    · have hbf : branchFor c = NodeName.detailed_summary := by
        unfold branchFor; rw [hr]; decide
      rw [hbf] at ht
      subst ht
      exact ⟨by decide, fun _ => hr, fun hm => absurd hm (by decide),
        fun hm => absurd hm (by decide), fun _ => by rw [hbf],
        by decide, by decide, by decide⟩
    · have hbf : branchFor c = NodeName.analyze_sentiment := by
        unfold branchFor; rw [hr]; decide
      rw [hbf] at ht
      subst ht
      exact ⟨by decide, fun hm => absurd hm (by decide), fun hm => absurd hm (by decide),
        fun _ => hr, fun _ => by rw [hbf],
        by decide, by decide, by decide⟩
    · have hbf : branchFor c = NodeName.standard_summary := by
        unfold branchFor; rw [hr]; decide
      rw [hbf] at ht
      subst ht
      exact ⟨by decide, fun hm => absurd hm (by decide), fun _ => hr,
        fun hm => absurd hm (by decide), fun _ => by rw [hbf],
        by decide, by decide, by decide⟩

/-- C5: any run that reaches a branch node executes `generate_report`
exactly once, and the run ends there. -/

theorem c5_convergence (o : Oracle) (s f : GraphState) (t : List NodeName)
    (h : app_invoke o s = .ok (f, t))
    (hb : .detailed_summary ∈ t ∨ .standard_summary ∈ t ∨ .analyze_sentiment ∈ t) :
    List.count .generate_report t = 1 ∧ t.getLast? = some .generate_report := by
  obtain ⟨c, hc, hfc, hcase⟩ := run_trace o s f t h
  rcases hcase with ⟨hend, ht⟩ | ⟨hend, ht⟩
  · subst ht
    rcases hb with hm | hm | hm <;> exact absurd hm (by decide)
  · rcases route_after_entities_on_mem c with hr | hr | hr
    · have hbf : branchFor c = NodeName.detailed_summary := by
        unfold branchFor; rw [hr]; decide
      rw [hbf] at ht
      subst ht
      exact ⟨by decide, by decide⟩
    · have hbf : branchFor c = NodeName.analyze_sentiment := by
        unfold branchFor; rw [hr]; decide
      rw [hbf] at ht
      subst ht
      exact ⟨by decide, by decide⟩
    · have hbf : branchFor c = NodeName.standard_summary := by
        unfold branchFor; rw [hr]; decide
      rw [hbf] at ht
      subst ht
      exact ⟨by decide, by decide⟩

/-- C6: the compiled graph's edge structure is a DAG (no node is its own
descendant), every successful run visits each node at most once, and the
engine's iteration budget is never exhausted (runs terminate). -/

theorem c6_dag_termination :
    (∀ n : NodeName, ¬ Relation.TransGen (fun x y => y ∈ successors x) n n) ∧
    (∀ (o : Oracle) (s f : GraphState) (t : List NodeName),
      app_invoke o s = .ok (f, t) → t.Nodup) ∧
    (∀ (o : Oracle) (s : GraphState), app_invoke o s ≠ .error .outOfFuel) := by
  refine ⟨?_, ?_, fun o s => app_invoke_not_outOfFuel o s⟩
  · intro n hcyc
    exact absurd (transGen_rank n n hcyc) (lt_irrefl _)
  · intro o s f t h
    obtain ⟨c, hc, hfc, hcase⟩ := run_trace o s f t h
    rcases hcase with ⟨hend, ht⟩ | ⟨hend, ht⟩
    · subst ht; decide
    · rcases route_after_entities_on_mem c with hr | hr | hr
      · have hbf : branchFor c = NodeName.detailed_summary := by
          unfold branchFor; rw [hr]; decide
        rw [hbf] at ht; subst ht; decide
      · have hbf : branchFor c = NodeName.analyze_sentiment := by
          unfold branchFor; rw [hr]; decide
        rw [hbf] at ht; subst ht; decide
      · have hbf : branchFor c = NodeName.standard_summary := by
          unfold branchFor; rw [hr]; decide
        rw [hbf] at ht; subst ht; decide

/-- C7: merge is a shallow field-wise overwrite that never deletes: the
merged state takes the update's value on fields the update carries and
keeps the prior value elsewhere, and any field set at the start of a
successful run is still set in its final state. -/

theorem c7_merge_overwrite_no_delete (s : GraphState) (u : StateUpdate)
    (o : Oracle) (f : GraphState) (t : List NodeName) (g : SField)
    (h : app_invoke o s = .ok (f, t))
    (hset : (getField s g).isSome = true) :
    (∀ g2 : SField, getField (merge s u) g2 =
      match getUpdField u g2 with
      | some v => some v
      | none => getField s g2) ∧
    (getField f g).isSome = true :=
  ⟨fun g2 => getField_merge s u g2, app_invoke_preserves o s f t g h hset⟩

/-- C8: with the model outputs held fixed, reruns are identical; the set
of executed nodes depends only on the classification output; and the
routers are pure functions of the classification field. -/

theorem c8_determinism (o1 o2 : Oracle) (s f1 f2 : GraphState)
    (t1 t2 : List NodeName)
    (hcl : o1.classify s.text = o2.classify s.text)
    (h1 : app_invoke o1 s = .ok (f1, t1))
    (h2 : app_invoke o2 s = .ok (f2, t2)) :
    t1 = t2 ∧
    (∀ r1 r2 : Except EngineError (GraphState × List NodeName),
      app_invoke o1 s = r1 → app_invoke o1 s = r2 → r1 = r2) ∧
    (∀ sa sb : GraphState, sa.classification = sb.classification →
      decide_path sa = decide_path sb ∧
      route_after_entities sa = route_after_entities sb) := by
  refine ⟨?_, fun r1 r2 e1 e2 => e1 ▸ e2 ▸ rfl,
    fun sa sb hab => ⟨by simp [decide_path, hab], by simp [route_after_entities, hab]⟩⟩
  obtain ⟨c1, hc1, hfc1, hcase1⟩ := run_trace o1 s f1 t1 h1
  obtain ⟨c2, hc2, hfc2, hcase2⟩ := run_trace o2 s f2 t2 h2
  rw [hcl, hc2] at hc1
  injection hc1 with hc12
  subst hc12
  rcases hcase1 with ⟨hend1, ht1⟩ | ⟨hend1, ht1⟩ <;>
    rcases hcase2 with ⟨hend2, ht2⟩ | ⟨hend2, ht2⟩
  · rw [ht1, ht2]
  · exact absurd hend1 hend2
  · exact absurd hend2 hend1
  · rw [ht1, ht2]

/-- C9: a step failure after classify succeeded aborts the run: the
error propagates, no final state is returned, and the classify result is
not observable. -/

theorem c9_atomic_failure (o : Oracle) (s : GraphState) (c : Str) (e : Str)
    (hc : o.classify s.text = .ok c)
    (hend : decide_path_on c ≠ str "end")
    (he : o.extract s.text = .error e) :
    app_invoke o s = .error (.stepFailed .extract_entities (.modelCall e)) ∧
    ∀ (f : GraphState) (t : List NodeName), app_invoke o s ≠ .ok (f, t) := by
  have hrun : app_invoke o s = .error (.stepFailed .extract_entities (.modelCall e)) := by
    rw [app_invoke_eq_runSpec]
    unfold runSpec
    simp only [hc]
    rw [if_neg hend]
    simp only [he]
  exact ⟨hrun, fun f t hcon => by rw [hrun] at hcon; exact Except.noConfusion hcon⟩

/-- `l` has a non-whitespace character. -/

theorem isPrefixList_append_self (n B : Str) : isPrefixList n (n ++ B) = true := by
  induction n with
  | nil => rfl
  | cons a as ih => simp [isPrefixList, ih]

/-- A list contains itself followed by anything as a substring. -/

theorem containsSub_self_append (n B : Str) : containsSub n (n ++ B) = true := by
  cases n with
  | nil => cases B <;> simp [containsSub, isPrefixList]
  | cons a as =>
    have h1 := isPrefixList_append_self (a :: as) B
    simp only [List.cons_append] at h1
    simp [containsSub, h1]

/-- Any middle section of a concatenation is a substring. -/

theorem containsSub_middle (A n B : Str) : containsSub n (A ++ (n ++ B)) = true := by
  induction A with
  | nil => simpa using containsSub_self_append n B
  | cons a A ih =>
    show containsSub n (a :: (A ++ (n ++ B))) = true
    simp [containsSub, ih]

/-- Right-stripping only affects a trailing segment: with a
non-whitespace character in `B`, stripping `A ++ B` keeps `A` intact. -/

theorem stripRightW_append_nonws (A B : Str) (h : hasNonWs B = true) :
    stripRightW (A ++ B) = A ++ stripRightW B := by
  unfold stripRightW
  rw [List.reverse_append, List.dropWhile_append]
  have hne : B.reverse.dropWhile Char.isWhitespace ≠ [] := by
    rw [Ne, List.dropWhile_eq_nil_iff]
    intro hall
    unfold hasNonWs at h
    rw [List.any_eq_true] at h
    obtain ⟨x, hx, hpx⟩ := h
    have hw := hall x (List.mem_reverse.mpr hx)
    rw [hw] at hpx
    exact Bool.noConfusion hpx
  rw [if_neg (by simpa [List.isEmpty_iff] using hne)]
  rw [List.reverse_append, List.reverse_reverse]

/-- Stripping an all-whitespace tail. -/

theorem stripRightW_append_allws (A B : Str) (h : hasNonWs B = false) :
    stripRightW (A ++ B) = stripRightW A := by
  unfold stripRightW
  rw [List.reverse_append, List.dropWhile_append]
  have hnil : B.reverse.dropWhile Char.isWhitespace = [] := by
    rw [List.dropWhile_eq_nil_iff]
    intro x hx
    unfold hasNonWs at h
    rw [List.any_eq_false] at h
    have hw := h x (List.mem_reverse.mp hx)
    simpa using hw
  simp [hnil]

/-- A list ending in a non-whitespace character is unchanged by
right-stripping. -/

theorem stripRightW_lastNonWs (l : Str) (h : lastNonWs l = true) :
    stripRightW l = l := by
  unfold stripRightW
  unfold lastNonWs at h
  cases hr : l.reverse with
  | nil => rw [hr] at h; exact Bool.noConfusion h
  | cons a rest =>
    rw [hr] at h
    have hna : a.isWhitespace = false := by simpa using h
    calc ((a :: rest).dropWhile Char.isWhitespace).reverse
        = (a :: rest).reverse := by rw [List.dropWhile_cons_of_neg (by simp [hna])]
      _ = l.reverse.reverse := by rw [← hr]
      _ = l := List.reverse_reverse l

/-- A non-empty list keeps its last character under prepending. -/

theorem lastNonWs_append (A n : Str) (hn : n ≠ []) :
    lastNonWs (A ++ n) = lastNonWs n := by
  unfold lastNonWs
  rw [List.reverse_append]
  cases hr : n.reverse with
  | nil => exact absurd (by simpa using hr) hn
  | cons a rest => rfl

/-- The workhorse: a middle section survives right-stripping whenever
something non-whitespace follows it, or it ends in non-whitespace. -/

theorem containsSub_stripRightW (n A B : Str)
    (h : hasNonWs B = true ∨ lastNonWs n = true) :
    containsSub n (stripRightW (A ++ (n ++ B))) = true := by
  have hassoc : A ++ (n ++ B) = (A ++ n) ++ B := (List.append_assoc A n B).symm
  rcases h with h | h
  · rw [hassoc, stripRightW_append_nonws _ _ h, List.append_assoc]
    exact containsSub_middle A n (stripRightW B)
  · by_cases hB : hasNonWs B = true
    · rw [hassoc, stripRightW_append_nonws _ _ hB, List.append_assoc]
      exact containsSub_middle A n (stripRightW B)
    · have hB2 : hasNonWs B = false := by
        rwa [Bool.not_eq_true] at hB
      have hn : n ≠ [] := by
        intro hcon
        rw [hcon] at h
        exact Bool.noConfusion h
      rw [hassoc, stripRightW_append_allws _ _ hB2,
        stripRightW_lastNonWs _ (by rwa [lastNonWs_append A n hn])]
      have : A ++ n = A ++ (n ++ []) := by simp
      rw [this]
      exact containsSub_middle A n []

/-- `hasNonWs` distributes over append. -/

theorem hasNonWs_append (x y : Str) : hasNonWs (x ++ y) = (hasNonWs x || hasNonWs y) := by
  simp [hasNonWs]

/-- The full report body, right-associated. -/

theorem reportFull_eq (c es SP1 SP2 : Str) :
    reportHeaderD c es ++ SP1 ++ SP2 =
      str "\n## Text Analysis Report\n\n**1. Classification:**\n" ++
        (c ++ (str "\n\n**2. Extracted Entities:**\n" ++ (es ++ (str "\n" ++ (SP1 ++ SP2))))) := by
  simp [reportHeaderD, List.append_assoc]

/-- Stripping the report only removes the leading newline on the left:
the header text blocks the left strip. -/

theorem pyStrip_header (R : Str) :
    pyStrip (str "\n## Text Analysis Report\n\n**1. Classification:**\n" ++ R) =
      stripRightW (str "## Text Analysis Report\n\n**1. Classification:**\n" ++ R) := by
  unfold pyStrip
  rw [List.dropWhile_append,
    show (str "\n## Text Analysis Report\n\n**1. Classification:**\n").dropWhile
        Char.isWhitespace =
      str "## Text Analysis Report\n\n**1. Classification:**\n" from by decide]
  rw [if_neg (by decide)]

/-- The report always contains the classification string. -/

theorem report_contains_classification (c es SP1 SP2 : Str) :
    containsSub c (pyStrip (reportHeaderD c es ++ SP1 ++ SP2)) = true := by
  rw [reportFull_eq, pyStrip_header]
  refine containsSub_stripRightW c _ _ (Or.inl ?_)
  rw [hasNonWs_append,
    show hasNonWs (str "\n\n**2. Extracted Entities:**\n") = true from by decide]
  rfl

/-- With an empty entities list, the report contains the entities
section reading "None". -/

theorem report_contains_none_marker (c SP1 SP2 : Str) :
    containsSub (str "**2. Extracted Entities:**\nNone")
      (pyStrip (reportHeaderD c (str "None") ++ SP1 ++ SP2)) = true := by
  rw [reportFull_eq, pyStrip_header]
  have hlit2 : ∀ R : Str,
      str "\n\n**2. Extracted Entities:**\n" ++ (str "None" ++ R) =
        str "\n\n" ++ (str "**2. Extracted Entities:**\nNone" ++ R) := by
    intro R
    rw [← List.append_assoc, ← List.append_assoc,
      show str "\n\n**2. Extracted Entities:**\n" ++ str "None" =
        str "\n\n" ++ str "**2. Extracted Entities:**\nNone" from by decide]
  rw [hlit2]
  rw [show str "## Text Analysis Report\n\n**1. Classification:**\n" ++
        (c ++ (str "\n\n" ++ (str "**2. Extracted Entities:**\nNone" ++ (str "\n" ++ (SP1 ++ SP2))))) =
      (str "## Text Analysis Report\n\n**1. Classification:**\n" ++ (c ++ str "\n\n")) ++
        (str "**2. Extracted Entities:**\nNone" ++ (str "\n" ++ (SP1 ++ SP2))) from by
    simp [List.append_assoc]]
  exact containsSub_stripRightW _ _ _ (Or.inr (by decide))

/-- When the summary field is truthy, the report contains the summary
section header. -/

theorem report_contains_summary_marker (c es SP2 : Str) (a : Char) (as : List Char) :
    containsSub (str "**3. Summary:**")
      (pyStrip (reportHeaderD c es
        ++ (str "\n**3. Summary:**\n" ++ (a :: as) ++ str "\n") ++ SP2)) = true := by
  rw [reportFull_eq, pyStrip_header]
  rw [show str "## Text Analysis Report\n\n**1. Classification:**\n" ++
        (c ++ (str "\n\n**2. Extracted Entities:**\n" ++ (es ++ (str "\n" ++
          ((str "\n**3. Summary:**\n" ++ (a :: as) ++ str "\n") ++ SP2))))) =
      (str "## Text Analysis Report\n\n**1. Classification:**\n" ++
        (c ++ (str "\n\n**2. Extracted Entities:**\n" ++ (es ++ (str "\n" ++ str "\n"))))) ++
        (str "**3. Summary:**" ++ (str "\n" ++ ((a :: as) ++ (str "\n" ++ SP2)))) from by
    simp [List.append_assoc,
      show str "\n**3. Summary:**\n" =
        str "\n" ++ (str "**3. Summary:**" ++ str "\n") from by decide]]
  exact containsSub_stripRightW _ _ _ (Or.inr (by decide))

/-- When the sentiment field is truthy, the report contains the
sentiment section header. -/

theorem report_contains_sentiment_marker (c es SP1 : Str) (a : Char) (as : List Char) :
    containsSub (str "**3. Sentiment Analysis:**")
      (pyStrip (reportHeaderD c es ++ SP1
        ++ (str "\n**3. Sentiment Analysis:**\nThe sentiment of the text is **"
            ++ (a :: as) ++ str "**.\n"))) = true := by
  rw [reportFull_eq, pyStrip_header]
  rw [show str "## Text Analysis Report\n\n**1. Classification:**\n" ++
        (c ++ (str "\n\n**2. Extracted Entities:**\n" ++ (es ++ (str "\n" ++
          (SP1 ++ (str "\n**3. Sentiment Analysis:**\nThe sentiment of the text is **"
            ++ (a :: as) ++ str "**.\n")))))) =
      (str "## Text Analysis Report\n\n**1. Classification:**\n" ++
        (c ++ (str "\n\n**2. Extracted Entities:**\n" ++ (es ++ (str "\n" ++
          (SP1 ++ str "\n")))))) ++
        (str "**3. Sentiment Analysis:**" ++
          (str "\nThe sentiment of the text is **" ++ ((a :: as) ++ str "**.\n"))) from by
    simp [List.append_assoc,
      show str "\n**3. Sentiment Analysis:**\nThe sentiment of the text is **" =
        str "\n" ++ (str "**3. Sentiment Analysis:**"
          ++ str "\nThe sentiment of the text is **") from by decide]]
  exact containsSub_stripRightW _ _ _ (Or.inr (by decide))

/-- The entities bullet list reads "None" exactly when the entities
field is unset or empty. -/

theorem entitiesStr_none_iff (s : GraphState) :
    entitiesStr s = str "None" ↔ (s.entities = none ∨ s.entities = some []) := by
  constructor
  · intro heq
    rcases hE : s.entities with _ | l
    · exact Or.inl rfl
    · cases l with
      | nil => exact Or.inr rfl
      | cons e es =>
        simp only [entitiesStr, hE] at heq
        injection heq with h1 h2
        exact absurd h1 (by decide)
  · intro hE
    rcases hE with hE | hE <;> simp [entitiesStr, hE]

/-- The report node produces exactly the header plus the truthy
sections, stripped. -/

theorem report_eq_parts (s : GraphState) (c : Str) (h : s.classification = some c) :
    report_generation_node s = .ok { report := some (pyStrip
      (reportHeaderD c (entitiesStr s) ++ summaryPartD s ++ sentimentPartD s)) } := by
  unfold report_generation_node
  rw [h]
  rcases hsm : s.summary with _ | sm
  · rcases hst : s.sentiment with _ | st
    · simp [hsm, hst, summaryPartD, sentimentPartD, reportHeaderD, List.append_assoc]
    · cases st <;>
        simp [hsm, hst, summaryPartD, sentimentPartD, reportHeaderD, List.append_assoc]
  · cases sm <;> rcases hst : s.sentiment with _ | st
    · simp [hsm, hst, summaryPartD, sentimentPartD, reportHeaderD, List.append_assoc]
    · cases st <;>
        simp [hsm, hst, summaryPartD, sentimentPartD, reportHeaderD, List.append_assoc]
    · simp [hsm, hst, summaryPartD, sentimentPartD, reportHeaderD, List.append_assoc]
    · cases st <;>
        simp [hsm, hst, summaryPartD, sentimentPartD, reportHeaderD, List.append_assoc]

/-- C10: when the classification field is set, the report node succeeds
writing only the report field; the report contains the classification;
the entities section reads "None" exactly when entities are absent or
empty; the summary and sentiment sections appear when those fields are
set and non-empty, and their parts are empty when the fields are unset
or empty. -/

theorem c10_report_generation (s : GraphState) (c : Str)
    (h : s.classification = some c) :
    report_generation_node s = .ok { report := some (pyStrip
      (reportHeaderD c (entitiesStr s) ++ summaryPartD s ++ sentimentPartD s)) } ∧
    (entitiesStr s = str "None" ↔ (s.entities = none ∨ s.entities = some [])) ∧
    containsSub c (pyStrip
      (reportHeaderD c (entitiesStr s) ++ summaryPartD s ++ sentimentPartD s)) = true ∧
    ((s.entities = none ∨ s.entities = some []) →
      containsSub (str "**2. Extracted Entities:**\nNone") (pyStrip
        (reportHeaderD c (entitiesStr s) ++ summaryPartD s ++ sentimentPartD s)) = true) ∧
    (∀ sm, s.summary = some sm → sm ≠ [] →
      containsSub (str "**3. Summary:**") (pyStrip
        (reportHeaderD c (entitiesStr s) ++ summaryPartD s ++ sentimentPartD s)) = true) ∧
    ((s.summary = none ∨ s.summary = some []) → summaryPartD s = []) ∧
    (∀ st, s.sentiment = some st → st ≠ [] →
      containsSub (str "**3. Sentiment Analysis:**") (pyStrip
        (reportHeaderD c (entitiesStr s) ++ summaryPartD s ++ sentimentPartD s)) = true) ∧
    ((s.sentiment = none ∨ s.sentiment = some []) → sentimentPartD s = []) := by
  refine ⟨report_eq_parts s c h, entitiesStr_none_iff s,
    report_contains_classification c _ _ _, ?_, ?_, ?_, ?_, ?_⟩
  · intro hE
    rw [(entitiesStr_none_iff s).mpr hE]
    exact report_contains_none_marker c _ _
  · intro sm hsm hne
    cases sm with
    | nil => exact absurd rfl hne
    | cons a as =>
      rw [show summaryPartD s = str "\n**3. Summary:**\n" ++ (a :: as) ++ str "\n" from by
        simp [summaryPartD, hsm]]
      exact report_contains_summary_marker c _ _ a as
  · intro hsm
    rcases hsm with hsm | hsm <;> simp [summaryPartD, hsm]
  · intro st hst hne
    cases st with
    | nil => exact absurd rfl hne
    | cons a as =>
      rw [show sentimentPartD s =
          str "\n**3. Sentiment Analysis:**\nThe sentiment of the text is **"
            ++ (a :: as) ++ str "**.\n" from by simp [sentimentPartD, hst]]
      exact report_contains_sentiment_marker c _ _ a as
  · intro hst
    rcases hst with hst | hst <;> simp [sentimentPartD, hst]

/-- A mocked oracle used by the witnesses: classifies as "Research". -/

example : app_invoke oWit sWit = .ok (fWit, tWit) := rfl

example : app_invoke oWit2 sWit = .ok (fWit2, tWit) := rfl

/-- A witness state classified as "News". -/

theorem c1_research_path_witness :
    oWit.classify sWit.text = .ok (str "Research") ∧
    oWit.extract sWit.text = .ok [str "E"] ∧
    oWit.detailedSummary sWit.text = .ok (str "S") ∧
    sWit.sentiment = none ∧
    (decide_path_on (str "Research") = str "research_branch" ∧
     classifyMap (str "research_branch") = some (.toNode .extract_entities) ∧
     route_after_entities_on (str "Research") = str "detailed_summary" ∧
     (app_invoke oWit sWit).toOption.map (fun p =>
         (p.1.classification, p.1.entities, p.1.summary, p.1.sentiment, p.2)) =
       some (some (str "Research"), some [str "E"], some (str "S"), none,
         [NodeName.classify, .extract_entities, .detailed_summary, .generate_report])) :=
  ⟨rfl, rfl, rfl, rfl, c1_research_path oWit sWit [str "E"] (str "S") rfl rfl rfl rfl⟩

/-- Witness for C2 at a concrete state. -/

theorem c2_labels_always_mapped_witness :
    sWitNews.classification = some (str "News") ∧
    (decide_path sWitNews = some (decide_path_on (str "News")) ∧
     (decide_path_on (str "News") = str "research_branch" ∨
       decide_path_on (str "News") = str "blog_branch" ∨
       decide_path_on (str "News") = str "news_branch" ∨
       decide_path_on (str "News") = str "end") ∧
     (classifyMap (decide_path_on (str "News"))).isSome = true ∧
     route_after_entities sWitNews = some (route_after_entities_on (str "News")) ∧
     (route_after_entities_on (str "News") = str "detailed_summary" ∨
       route_after_entities_on (str "News") = str "analyze_sentiment" ∨
       route_after_entities_on (str "News") = str "standard_summary") ∧
     (extractMap (route_after_entities_on (str "News"))).isSome = true ∧
     (∀ l, routeOf .classify sWitNews ≠ .error (.unmappedLabel .classify l)) ∧
     (∀ l, routeOf .extract_entities sWitNews ≠
        .error (.unmappedLabel .extract_entities l))) :=
  ⟨rfl, c2_labels_always_mapped sWitNews (str "News") rfl⟩

/-- Witness for C3 at a concrete state. -/

theorem c3_first_match_precedence_witness :
    sWitBlogNews.classification = some (str "Blog news") ∧
    containsSub (str "blog") (lowerStr (str "Blog news")) = true ∧
    containsSub (str "news") (lowerStr (str "Blog news")) = true ∧
    containsSub (str "research") (lowerStr (str "Blog news")) = false ∧
    (decide_path sWitBlogNews = some (str "blog_branch") ∧
     route_after_entities sWitBlogNews = some (str "analyze_sentiment")) :=
  ⟨rfl, by decide, by decide, by decide,
    c3_first_match_precedence sWitBlogNews (str "Blog news") rfl
      (by decide) (by decide) (by decide)⟩

/-- Witness for C4 at a concrete run. -/

theorem c4_exclusive_routing_witness :
    app_invoke oWit sWit = .ok (fWit, tWit) ∧
    (∃ c, fWit.classification = some c ∧
      (List.count .detailed_summary tWit + List.count .standard_summary tWit +
        List.count .analyze_sentiment tWit ≤ 1) ∧
      (.detailed_summary ∈ tWit → route_after_entities_on c = str "detailed_summary") ∧
      (.standard_summary ∈ tWit → route_after_entities_on c = str "standard_summary") ∧
      (.analyze_sentiment ∈ tWit → route_after_entities_on c = str "analyze_sentiment") ∧
      (.extract_entities ∈ tWit →
        tWit = [.classify, .extract_entities, branchFor c, .generate_report]) ∧
      ¬(.detailed_summary ∈ tWit ∧ .standard_summary ∈ tWit) ∧
      ¬(.detailed_summary ∈ tWit ∧ .analyze_sentiment ∈ tWit) ∧
      ¬(.standard_summary ∈ tWit ∧ .analyze_sentiment ∈ tWit)) :=
  ⟨rfl, c4_exclusive_routing oWit sWit fWit tWit rfl⟩

/-- Witness for C5 at a concrete run. -/

theorem c5_convergence_witness :
    app_invoke oWit sWit = .ok (fWit, tWit) ∧
    (.detailed_summary ∈ tWit ∨ .standard_summary ∈ tWit ∨
      .analyze_sentiment ∈ tWit) ∧
    (List.count .generate_report tWit = 1 ∧
      tWit.getLast? = some .generate_report) :=
  ⟨rfl, Or.inl (by decide),
    c5_convergence oWit sWit fWit tWit rfl (Or.inl (by decide))⟩

/-- Witness for C6 at a concrete run. -/

theorem c6_dag_termination_witness :
    tWit.Nodup ∧ app_invoke oWit sWit ≠ .error .outOfFuel :=
  ⟨c6_dag_termination.2.1 oWit sWit fWit tWit rfl,
    c6_dag_termination.2.2 oWit sWit⟩

/-- Witness for C7 at a concrete run, update and field. -/

theorem c7_merge_overwrite_no_delete_witness :
    app_invoke oWit sWit = .ok (fWit, tWit) ∧
    (getField sWit .text).isSome = true ∧
    ((∀ g2 : SField, getField (merge sWit uWit) g2 =
      match getUpdField uWit g2 with
      | some v => some v
      | none => getField sWit g2) ∧
    (getField fWit .text).isSome = true) :=
  ⟨rfl, rfl,
    c7_merge_overwrite_no_delete sWit uWit oWit fWit tWit .text rfl rfl⟩

/-- Witness for C8 at two concrete oracles agreeing on classification. -/

theorem c8_determinism_witness :
    oWit.classify sWit.text = oWit2.classify sWit.text ∧
    app_invoke oWit sWit = .ok (fWit, tWit) ∧
    app_invoke oWit2 sWit = .ok (fWit2, tWit) ∧
    (tWit = tWit ∧
     (∀ r1 r2 : Except EngineError (GraphState × List NodeName),
       app_invoke oWit sWit = r1 → app_invoke oWit sWit = r2 → r1 = r2) ∧
     (∀ sa sb : GraphState, sa.classification = sb.classification →
       decide_path sa = decide_path sb ∧
       route_after_entities sa = route_after_entities sb)) :=
  ⟨rfl, rfl, rfl,
    c8_determinism oWit oWit2 sWit fWit fWit2 tWit tWit rfl rfl rfl⟩

/-- Witness for C9 at a concrete failing oracle. -/

theorem c9_atomic_failure_witness :
    oFail.classify sWit.text = .ok (str "News") ∧
    decide_path_on (str "News") ≠ str "end" ∧
    oFail.extract sWit.text = .error (str "boom") ∧
    (app_invoke oFail sWit =
      .error (.stepFailed .extract_entities (.modelCall (str "boom"))) ∧
     ∀ (f : GraphState) (t : List NodeName), app_invoke oFail sWit ≠ .ok (f, t)) :=
  ⟨rfl, by decide, rfl,
    c9_atomic_failure oFail sWit (str "News") (str "boom") rfl (by decide) rfl⟩

/-- Witness for C10 at a concrete state. -/

theorem c10_report_generation_witness :
    sWitRep.classification = some (str "Research") ∧
    (report_generation_node sWitRep = .ok { report := some (pyStrip
      (reportHeaderD (str "Research") (entitiesStr sWitRep)
        ++ summaryPartD sWitRep ++ sentimentPartD sWitRep)) } ∧
    (entitiesStr sWitRep = str "None" ↔
      (sWitRep.entities = none ∨ sWitRep.entities = some [])) ∧
    containsSub (str "Research") (pyStrip
      (reportHeaderD (str "Research") (entitiesStr sWitRep)
        ++ summaryPartD sWitRep ++ sentimentPartD sWitRep)) = true ∧
    ((sWitRep.entities = none ∨ sWitRep.entities = some []) →
      containsSub (str "**2. Extracted Entities:**\nNone") (pyStrip
        (reportHeaderD (str "Research") (entitiesStr sWitRep)
          ++ summaryPartD sWitRep ++ sentimentPartD sWitRep)) = true) ∧
    (∀ sm, sWitRep.summary = some sm → sm ≠ [] →
      containsSub (str "**3. Summary:**") (pyStrip
        (reportHeaderD (str "Research") (entitiesStr sWitRep)
          ++ summaryPartD sWitRep ++ sentimentPartD sWitRep)) = true) ∧
    ((sWitRep.summary = none ∨ sWitRep.summary = some []) →
      summaryPartD sWitRep = []) ∧
    (∀ st, sWitRep.sentiment = some st → st ≠ [] →
      containsSub (str "**3. Sentiment Analysis:**") (pyStrip
        (reportHeaderD (str "Research") (entitiesStr sWitRep)
          ++ summaryPartD sWitRep ++ sentimentPartD sWitRep)) = true) ∧
    ((sWitRep.sentiment = none ∨ sWitRep.sentiment = some []) →
      sentimentPartD sWitRep = [])) :=
  ⟨rfl, c10_report_generation sWitRep (str "Research") rfl⟩
